import Mathlib

/-!
Verification of the PTZ control system protocol translation engine.

The development shallowly embeds the two core modules of the repository,
`core/protocols.py` (the Pelco-D positioner codec) and `core/controller.py`
(the GS-232B dispatcher), together with the constructor signatures of
`hardware/interfaces.py`.  Python floats are modelled as exact rationals,
Python byte strings as lists of naturals, Python text strings as lists of
characters, and the byte transport as an explicit state record holding the
results of successive send calls and the data available to each query
transaction.  Fallible Python code (statements that can raise) is modelled
in the `Except` monad.
-/

/-! ## Models of Python primitive operations -/

/-- Python modulo on reals: the result has the sign of the divisor,
`x % y = x - y * floor (x / y)`. -/
def pyMod (x y : ℚ) : ℚ := x - y * ⌊x / y⌋

/-- Python `int()` applied to a real value: truncation toward zero. -/
def pyTrunc (x : ℚ) : ℤ := if 0 ≤ x then ⌊x⌋ else ⌈x⌉

/-- Python `round()` on a real value: round half to even. -/
def pyRound (x : ℚ) : ℤ :=
  if x - ⌊x⌋ < 1/2 then ⌊x⌋
  else if 1/2 < x - ⌊x⌋ then ⌊x⌋ + 1
  else if ⌊x⌋ % 2 = 0 then ⌊x⌋ else ⌊x⌋ + 1

/-- Whitespace characters recognized by Python `str.split()` / `str.strip()`. -/
def isSpace (c : Char) : Bool :=
  c == ' ' || c == '\t' || c == '\n' || c == '\r' || c == '\x0b' || c == '\x0c'

/-- Python `str.strip()`: remove leading and trailing whitespace. -/
def pyStrip (s : List Char) : List Char :=
  ((s.dropWhile isSpace).reverse.dropWhile isSpace).reverse

/-- Worker for `pySplit`; the fuel argument is an upper bound on the number
of characters still to be consumed. -/
def pySplitAux : ℕ → List Char → List (List Char)
  | 0, _ => []
  | _ + 1, [] => []
  | n + 1, c :: rest =>
    if isSpace c then pySplitAux n rest
    else (c :: rest.takeWhile (fun x => !isSpace x)) ::
      pySplitAux n (rest.dropWhile (fun x => !isSpace x))

/-- Python `str.split()` with no separator: split on runs of whitespace,
discarding empty pieces. -/
def pySplit (s : List Char) : List (List Char) := pySplitAux s.length s

/-- Numeric value of a list of decimal digit characters. -/
def digitsVal (ds : List Char) : ℕ := ds.foldl (fun a c => 10 * a + (c.toNat - 48)) 0

/-- A parsed decimal literal: sign, integer part, fractional part with its
length, and a signed decimal exponent. -/
structure DecLit where
  neg : Bool
  intVal : ℕ
  fracVal : ℕ
  fracLen : ℕ
  expNeg : Bool
  expVal : ℕ
deriving DecidableEq, Repr

/-- The rational value denoted by a parsed decimal literal. -/
def DecLit.toRat (d : DecLit) : ℚ :=
  let m : ℚ := (d.intVal : ℚ) + (d.fracVal : ℚ) / 10 ^ d.fracLen
  let e : ℚ := if d.expNeg then m / 10 ^ d.expVal else m * 10 ^ d.expVal
  if d.neg then -e else e

/-- Parse the exponent suffix of a decimal literal (digits after `e`/`E`). -/
def parseExpTail (d : DecLit) (cs : List Char) : Option DecLit :=
  let (esign, ds) :=
    match cs with
    | '+' :: r => (false, r)
    | '-' :: r => (true, r)
    | r => (false, r)
  if ds ≠ [] && ds.all Char.isDigit then
    some { d with expNeg := esign, expVal := digitsVal ds }
  else none

/-- Parse the unsigned body of a decimal literal: digits, an optional
fraction, and an optional exponent. -/
def parseBody (s : List Char) : Option DecLit :=
  let ip := s.takeWhile Char.isDigit
  let s1 := s.dropWhile Char.isDigit
  let base : DecLit := ⟨false, digitsVal ip, 0, 0, false, 0⟩
  match s1 with
  | [] => if ip.isEmpty then none else some base
  | '.' :: t =>
    let fd := t.takeWhile Char.isDigit
    let s2 := t.dropWhile Char.isDigit
    if ip.isEmpty && fd.isEmpty then none
    else
      let withFrac : DecLit := { base with fracVal := digitsVal fd, fracLen := fd.length }
      match s2 with
      | [] => some withFrac
      | 'e' :: r => parseExpTail withFrac r
      | 'E' :: r => parseExpTail withFrac r
      | _ => none
  | 'e' :: r => if ip.isEmpty then none else parseExpTail base r
  | 'E' :: r => if ip.isEmpty then none else parseExpTail base r
  | _ => none

/-- Model of the Python built-in `float(str)` on decimal literals
(optional sign, digits, optional fraction, optional exponent); the special
forms `inf`/`nan` and digit-group underscores are outside the model. -/
def parseFloatLit (s : List Char) : Option DecLit :=
  match pyStrip s with
  | '+' :: r => parseBody r
  | '-' :: r => (parseBody r).map (fun d => { d with neg := true })
  | r => parseBody r

/-- The rational value produced by `float(str)` on a decimal literal. -/
def parseFloat (s : List Char) : Option ℚ := (parseFloatLit s).map DecLit.toRat

/-- Decimal digit characters of a natural number; the first argument is
recursion fuel, always called with enough of it. -/
def natCharsAux : ℕ → ℕ → List Char
  | 0, _ => []
  | fuel + 1, n =>
    if n < 10 then [Nat.digitChar n]
    else natCharsAux fuel (n / 10) ++ [Nat.digitChar (n % 10)]

/-- Decimal rendering of a natural number, as Python `str(int)` would. -/
def natChars (n : ℕ) : List Char := natCharsAux (n + 1) n

/-- Decimal rendering of an integer, as Python `str(int)` would. -/
def intChars (n : ℤ) : List Char :=
  if n < 0 then '-' :: natChars n.natAbs else natChars n.natAbs

/-- Left-pad a digit string with zeros up to the given width. -/
def padZeros (w : ℕ) (ds : List Char) : List Char :=
  List.replicate (w - ds.length) '0' ++ ds

/-- Python format specifier `03d`: minimum width 3, zero padded, the sign
counting toward the width. -/
def format03d (n : ℤ) : List Char :=
  if n < 0 then '-' :: padZeros 2 (natChars n.natAbs) else padZeros 3 (natChars n.natAbs)

/-- Boolean test that the first list is an initial segment of the second
(Python `str.startswith`). -/
def leadsWith : List Char → List Char → Bool
  | [], _ => true
  | _ :: _, [] => false
  | a :: as, b :: bs => a == b && leadsWith as bs

/-- Boolean test that the first list is a final segment of the second
(Python `str.endswith`). -/
def trailsWith (p s : List Char) : Bool := leadsWith p.reverse s.reverse

/-! ## Data model: the angle-correction configuration -/

/-- The `angle_correction` table of the Pelco-D configuration
(`config["angle_correction"]` in `core/protocols.py`). -/
structure AngleCorrection where
  min_elevation : ℚ
  max_elevation : ℚ
  azimuth_offset : ℚ
  initial_azimuth : ℚ

/-- The configuration-range sanity conditions checked by the source
(`min_elevation <= max_elevation`, bounds within `[-180, 360]`). -/
def AngleCorrection.valid (cfg : AngleCorrection) : Prop :=
  cfg.min_elevation ≤ cfg.max_elevation ∧
    -180 ≤ cfg.min_elevation ∧ cfg.max_elevation ≤ 360

instance (cfg : AngleCorrection) : Decidable cfg.valid := by
  unfold AngleCorrection.valid; infer_instance

/-! ## The byte transport model

The positioner transport is modelled by the results of its successive
`send` calls together with the incoming data available to each query
transaction: a transaction batch is a pair of the stale frames present
before the query is sent (drained by the flush loop) and the frames
arriving after the send (read by the retry loop). -/

/-- State of the positioner byte transport. -/
structure PelcoHw where
  sends : List Bool
  batches : List (List (List ℕ) × List (List ℕ))
deriving DecidableEq, Repr

/-- One `hw.send` call: pop the next send result (defaulting to success
when the list of scripted results is exhausted). -/
def hwSend (hw : PelcoHw) : Bool × PelcoHw :=
  (hw.sends.headD true, ⟨hw.sends.tail, hw.batches⟩)

/-- Take the incoming-data batch for the next query transaction. -/
def hwBatch (hw : PelcoHw) : (List (List ℕ) × List (List ℕ)) × PelcoHw :=
  (hw.batches.headD ([], []), ⟨hw.sends, hw.batches.tail⟩)

/-! ## PelcoDProtocol (`core/protocols.py`) -/

/-- `generate_packet`: fixed start byte `0xFF` and address `0x01`, then the
two command bytes and two data bytes, closed by `sum(header[1:]) % 256`. -/
def generate_packet (command1 command2 data1 data2 : ℕ) : List ℕ :=
  let header := [0xFF, 0x01, command1, command2, data1, data2]
  header ++ [(header.drop 1).sum % 256]

/-- The structural checksum comparison performed by `_validate_response`:
`sum(response[1:-1]) % 256 == response[-1]`. -/
def checksum_okb (response : List ℕ) : Bool :=
  ((response.drop 1).dropLast.sum % 256) == response.getLastD 0

/-- `_validate_response`: computes the checksum comparison but first
re-checks the configuration ranges on every call, raising `ValueError`
(modelled as `Except.error`) when they are violated. -/
def _validate_response (cfg : AngleCorrection) (response : List ℕ) :
    Except String Bool :=
  if cfg.min_elevation > cfg.max_elevation then
    .error "ValueError: min elevation above max elevation"
  else if cfg.min_elevation < -180 ∨ cfg.max_elevation > 360 then
    .error "ValueError: elevation range outside [-180, 360]"
  else .ok (checksum_okb response)

/-- `raw_value = (response[4] << 8) | response[5]`. -/
def raw_from_response (response : List ℕ) : ℕ :=
  response.getD 4 0 <<< 8 ||| response.getD 5 0

/-- `_apply_angle_correction`: for an elevation query (`0x53`) add the
absolute minimum elevation, reduce modulo 360 and re-encode to
centidegrees; for an azimuth query (`0x51`) add the azimuth offset and the
initial azimuth, reduce modulo 360 and re-encode; otherwise return the raw
value unchanged. -/
def _apply_angle_correction (cfg : AngleCorrection) (raw_value : ℕ)
    (cmd_type : ℕ) : ℤ :=
  let corrected : ℚ := (raw_value : ℚ) / 100
  if cmd_type = 0x53 then
    pyTrunc (pyMod (corrected + |cfg.min_elevation|) 360 * 100)
  else if cmd_type = 0x51 then
    pyTrunc (pyMod (corrected + cfg.azimuth_offset + cfg.initial_azimuth) 360 * 100)
  else (raw_value : ℤ)

/-- The buffer-clearing loop of `query_angle`
(`while self.hw.recv(1024, timeout=0.1): pass`): reads are discarded until
one is empty; frames behind an interior empty read remain unread. -/
def flushDrain : List (List ℕ) → List (List ℕ)
  | [] => []
  | f :: rest => if f = [] then rest else flushDrain rest

/-- The bounded read loop of `query_angle`.  Each step performs one
`hw.recv(7, timeout=1.0)`; an empty or echoed frame is skipped, a 7-byte
frame is checked by `_validate_response` (which may raise) and accepted
when the checksum matches, everything else is skipped.  Returns the result
together with the number of reads performed. -/
def queryReadLoop (cfg : AngleCorrection) (packet : List ℕ) (query_cmd : ℕ) :
    ℕ → List (List ℕ) → Except String (Option ℤ) × ℕ
  | 0, _ => (.ok none, 0)
  | n + 1, frames =>
    let response := frames.headD []
    let rest := frames.tail
    if response = [] ∨ response = packet then
      let (r, k) := queryReadLoop cfg packet query_cmd n rest
      (r, k + 1)
    else if response.length = 7 then
      match _validate_response cfg response with
      | .error e => (.error e, 1)
      | .ok true =>
        (.ok (some (_apply_angle_correction cfg (raw_from_response response) query_cmd)), 1)
      | .ok false =>
        let (r, k) := queryReadLoop cfg packet query_cmd n rest
        (r, k + 1)
    else
      let (r, k) := queryReadLoop cfg packet query_cmd n rest
      (r, k + 1)

/-- `query_angle`: build the query packet, drain stale input, send the
packet (returning `None` when the send fails), then run the 3-attempt read
loop over the frames available to this transaction. -/
def query_angle (cfg : AngleCorrection) (hw : PelcoHw) (query_cmd : ℕ) :
    (Except String (Option ℤ) × ℕ) × PelcoHw :=
  let packet := generate_packet 0 query_cmd 0 0
  let (batch, hw₁) := hwBatch hw
  let leftover := flushDrain batch.1
  let (sent, hw₂) := hwSend hw₁
  if sent then (queryReadLoop cfg packet query_cmd 3 (leftover ++ batch.2), hw₂)
  else ((.ok none, 0), hw₂)

/-- `_send_angle_command`: encode the angle as big-endian centidegrees
(`value = int(angle * 100)`, `data1 = (value >> 8) & 0xFF`,
`data2 = value & 0xFF`), frame, and send; returns the transport send
result together with the packet that was sent. -/
def _send_angle_command (hw : PelcoHw) (angle : ℚ) (command : ℕ) :
    (Bool × List ℕ) × PelcoHw :=
  let value := pyTrunc (angle * 100)
  let data1 := (value / 256 % 256).toNat
  let data2 := (value % 256).toNat
  let packet := generate_packet 0 command data1 data2
  let (ok, hw') := hwSend hw
  ((ok, packet), hw')

/-- `_handle_elevation`: wraparound adjustment
(`adjusted = angle - abs_min` when `angle >= abs_min`, else
`360 + min_elevation + angle`) followed by `_send_angle_command`; the
second component lists the packets sent. -/
def _handle_elevation (cfg : AngleCorrection) (hw : PelcoHw) (angle : ℚ) :
    (Bool × List (List ℕ)) × PelcoHw :=
  let absMin := |cfg.min_elevation|
  let adjusted := if angle ≥ absMin then angle - absMin
    else 360 + cfg.min_elevation + angle
  let ((ok, pkt), hw') := _send_angle_command hw adjusted 0x4D
  ((ok, [pkt]), hw')

/-- `_handle_azimuth`: reject negative input without sending; reduce the
angle modulo 360 only when it exceeds 360; then `_send_angle_command`. -/
def _handle_azimuth (hw : PelcoHw) (angle : ℚ) :
    (Bool × List (List ℕ)) × PelcoHw :=
  if angle < 0 then ((false, []), hw)
  else
    let a := if angle > 360 then pyMod angle 360 else angle
    let ((ok, pkt), hw') := _send_angle_command hw a 0x4B
    ((ok, [pkt]), hw')

/-- `set_angle`: dispatch on the command identity (`0x4D` elevation,
`0x4B` azimuth, anything else rejected without sending). -/
def set_angle (cfg : AngleCorrection) (hw : PelcoHw) (angle : ℚ)
    (set_cmd : ℕ) : (Bool × List (List ℕ)) × PelcoHw :=
  if set_cmd = 0x4D then _handle_elevation cfg hw angle
  else if set_cmd = 0x4B then _handle_azimuth hw angle
  else ((false, []), hw)

/-- The packet `_send_angle_command` frames for a given angle and command
(the transport-independent part of its work). -/
def anglePacket (angle : ℚ) (command : ℕ) : List ℕ :=
  generate_packet 0 command ((pyTrunc (angle * 100) / 256 % 256).toNat)
    ((pyTrunc (angle * 100) % 256).toNat)

/-- The wraparound-adjusted elevation computed by `_handle_elevation`. -/
def elevAdjusted (cfg : AngleCorrection) (angle : ℚ) : ℚ :=
  if angle ≥ |cfg.min_elevation| then angle - |cfg.min_elevation|
  else 360 + cfg.min_elevation + angle

/-- A frame the query read loop discards: empty, an echo of the outgoing
query packet, not exactly 7 bytes, or failing the checksum. -/
def invalid_frame (query_cmd : ℕ) (f : List ℕ) : Prop :=
  f = [] ∨ f = generate_packet 0 query_cmd 0 0 ∨ f.length ≠ 7 ∨
    checksum_okb f = false

instance (query_cmd : ℕ) (f : List ℕ) : Decidable (invalid_frame query_cmd f) := by
  unfold invalid_frame; infer_instance

/-! ## ControlSystem dispatcher (`core/controller.py`)

The source file contains a literal syntax error at the azimuth set call:
`self.pelco.set_a    ngle(azi, 0x4B)` (stray whitespace inside the
attribute name), which prevents the module from being imported at all.
The dispatcher is embedded with that call read as the evident
`set_angle`, which the very next line spells correctly for elevation. -/

/-- `_execute_angle_control_command`: split the argument string, parse two
float tokens (extra tokens are ignored), set azimuth (`0x4B`) then, only
when that succeeded, elevation (`0x4D`); reply `"ACK\r\n"` when both sets
succeed; a missing token (`IndexError`) or an unparseable token
(`ValueError`) is caught and yields the empty reply. -/
def _execute_angle_control_command (cfg : AngleCorrection) (hw : PelcoHw)
    (w_cmd : List Char) : (List Char × List (List ℕ)) × PelcoHw :=
  match pySplit w_cmd with
  | t1 :: t2 :: _ =>
    match parseFloat t1, parseFloat t2 with
    | some azi, some ele =>
      let ((okA, sentA), hw₁) := set_angle cfg hw azi 0x4B
      if okA then
        let ((okE, sentE), hw₂) := set_angle cfg hw₁ ele 0x4D
        ((if okE then "ACK\r\n".data else [], sentA ++ sentE), hw₂)
      else (([], sentA), hw₁)
    | _, _ => (([], []), hw)
  | _ => (([], []), hw)

/-- The reply `f"AZ={azimuth_deg:03d} EL={elevation_deg:03d}\r\n"`. -/
def azElReply (azimuth_deg elevation_deg : ℤ) : List Char :=
  "AZ=".data ++ format03d azimuth_deg ++ " EL=".data ++
    format03d elevation_deg ++ "\r\n".data

/-- `_execute_angle_query_command`: query azimuth (`0x51`) then elevation
(`0x53`); when both yield a value, format the reply from the
integer-degree quotients (`// 100`); when either is `None`, reply
nothing.  An exception raised by a query propagates. -/
def _execute_angle_query_command (cfg : AngleCorrection) (hw : PelcoHw) :
    Except String (List Char) × PelcoHw :=
  let ((azR, _), hw₁) := query_angle cfg hw 0x51
  match azR with
  | .error e => (.error e, hw₁)
  | .ok azimuth =>
    let ((elR, _), hw₂) := query_angle cfg hw₁ 0x53
    match elR with
    | .error e => (.error e, hw₂)
    | .ok elevation =>
      match azimuth, elevation with
      | some az, some el => (.ok (azElReply (az / 100) (el / 100)), hw₂)
      | _, _ => (.ok [], hw₂)

/-- `_handle_combined_command`: extract the embedded `W` arguments
(`cmd[3:]` for a `C2W` form, `cmd[1:-2]` for a `W…C2` form), run the
angle-set path, and run the angle-query path only when the set path
replied (truthy string); the second component lists the set packets
sent. -/
def _handle_combined_command (cfg : AngleCorrection) (hw : PelcoHw)
    (cmd : List Char) : Except String (List Char × List (List ℕ)) × PelcoHw :=
  let w_cmd := if leadsWith "C2W".data cmd then cmd.drop 3
    else (cmd.drop 1).dropLast.dropLast
  let ((w_result, sent), hw₁) := _execute_angle_control_command cfg hw w_cmd
  if w_result ≠ [] then
    match _execute_angle_query_command cfg hw₁ with
    | (.error e, hw₂) => (.error e, hw₂)
    | (.ok r, hw₂) => (.ok (r, sent), hw₂)
  else (.ok ([], sent), hw₁)

/-- `_handle_setpos`: require exactly two tokens, parse both as floats
(`ValueError` caught to an empty reply), reject a negative elevation
outright, otherwise delegate the two values rounded to integer degrees
(`f"{round(azi)} {round(ele)}"`) to the angle-set path. -/
def _handle_setpos (cfg : AngleCorrection) (hw : PelcoHw) (cmd : List Char) :
    (List Char × List (List ℕ)) × PelcoHw :=
  let parts := pySplit cmd
  if parts.length ≠ 2 then (([], []), hw)
  else
    match parseFloat (parts.getD 0 []), parseFloat (parts.getD 1 []) with
    | some azi, some ele =>
      if ele < 0 then (([], []), hw)
      else _execute_angle_control_command cfg hw
        (intChars (pyRound azi) ++ ' ' :: intChars (pyRound ele))
    | _, _ => (([], []), hw)

/-- `_process_command`: a combined form (`C2W…`, or `W…` ending in `C2`)
is routed first; then the prefix handlers in dictionary order `C2`, `W`,
`\set_pos`, each receiving the rest of the line stripped; anything else
yields no reply. -/
def _process_command (cfg : AngleCorrection) (hw : PelcoHw) (cmd : List Char) :
    Except String (List Char × List (List ℕ)) × PelcoHw :=
  if leadsWith "C2W".data cmd ∨ (leadsWith "W".data cmd ∧ trailsWith "C2".data cmd) then
    _handle_combined_command cfg hw cmd
  else if leadsWith "C2".data cmd then
    match _execute_angle_query_command cfg hw with
    | (.error e, hw') => (.error e, hw')
    | (.ok r, hw') => (.ok (r, []), hw')
  else if leadsWith "W".data cmd then
    let (r, hw') := _execute_angle_control_command cfg hw (pyStrip (cmd.drop 1))
    (.ok r, hw')
  else if leadsWith "\\set_pos".data cmd then
    let (r, hw') := _handle_setpos cfg hw (pyStrip (cmd.drop 8))
    (.ok r, hw')
  else (.ok ([], []), hw)

/-! ## Handler construction (`_create_handler` and the constructors of
`hardware/interfaces.py`)

Python calls are modelled by their positional-argument count checked
against the parameter count of the called `__init__`. -/

/-- Number of parameters besides `self` of `SerialHandler.__init__`
(`def __init__(self, config)`). -/
def SerialHandler_init_params : ℕ := 1

/-- Number of parameters besides `self` of `TCPHandler.__init__`
(`def __init__(self, config)`). -/
def TCPHandler_init_params : ℕ := 1

/-- Calling a Python callable with a number of positional arguments:
a count mismatch raises `TypeError`. -/
def pyCall (paramCount argCount : ℕ) : Except String Unit :=
  if argCount = paramCount then .ok () else .error "TypeError"

/-- `_create_handler`: look the protocol up in the handler table (a
missing key raises `KeyError`), invoke the constructor with the two
positional arguments `(config, self.log)`, then require `connect()` to
succeed. -/
def _create_handler (protocol : String) (connectOk : Bool) :
    Except String Unit := do
  let paramCount ←
    if protocol = "serial" then Except.ok SerialHandler_init_params
    else if protocol = "tcp" then Except.ok TCPHandler_init_params
    else Except.error "KeyError"
  pyCall paramCount 2
  if connectOk then Except.ok () else Except.error "ConnectionError"

/-- `_init_connections` inside `ControlSystem.__init__`: create the
GS-232B handler then the Pelco-D handler; any exception aborts and is
re-raised by the constructor. -/
def controlSystemInit (gsProtocol pelcoProtocol : String)
    (gsConnect pelcoConnect : Bool) : Except String Unit := do
  _create_handler gsProtocol gsConnect
  _create_handler pelcoProtocol pelcoConnect

/-! ## The elevation round trip -/

/-- Feed the 16-bit value sent by the elevation set path back through the
elevation query correction: the composition the specification requires to
reconstruct the original angle. -/
def elevation_round_trip (cfg : AngleCorrection) (angle : ℚ) : ℤ :=
  let pkt := ((_handle_elevation cfg ⟨[true], []⟩ angle).1.2).headD []
  _apply_angle_correction cfg (raw_from_response pkt) 0x53

/-! ## Helper lemmas -/

/-- Under a valid configuration the response validator never raises and
reduces to the structural checksum test. -/
lemma validate_of_valid (cfg : AngleCorrection) (h : cfg.valid)
    (response : List ℕ) :
    _validate_response cfg response = .ok (checksum_okb response) := by
  obtain ⟨h1, h2, h3⟩ := h
  unfold _validate_response
  rw [if_neg (not_lt.mpr h1), if_neg (by push_neg; exact ⟨h2, h3⟩)]

/-- Big-endian recombination: for a low byte below 256 the shift-or is
plain positional arithmetic. -/
lemma lor_shift_eq (x y : ℕ) (hy : y < 256) : x <<< 8 ||| y = x * 256 + y := by
  rw [Nat.shiftLeft_eq]
  rw [show x * 2 ^ 8 = 2 ^ 8 * x by ring, ← Nat.mul_add_lt_is_or hy x]
  ring

lemma pyMod_nonneg (x : ℚ) {y : ℚ} (hy : 0 < y) : 0 ≤ pyMod x y := by
  have h := Int.sub_one_lt_floor (x / y)
  have h2 : (⌊x / y⌋ : ℚ) ≤ x / y := Int.floor_le (x / y)
  unfold pyMod
  have : y * (⌊x / y⌋ : ℚ) ≤ y * (x / y) := by
    exact mul_le_mul_of_nonneg_left h2 (le_of_lt hy)
  have hxy : y * (x / y) = x := by field_simp
  linarith

lemma pyMod_lt (x : ℚ) {y : ℚ} (hy : 0 < y) : pyMod x y < y := by
  have h : x / y < (⌊x / y⌋ : ℚ) + 1 := Int.lt_floor_add_one (x / y)
  unfold pyMod
  have := mul_lt_mul_of_pos_left h hy
  have hxy : y * (x / y) = x := by field_simp
  nlinarith

/-- Scaling a Python modulo by 100. -/
lemma pyMod_scale (x : ℚ) : 100 * pyMod x 360 = pyMod (100 * x) 36000 := by
  unfold pyMod
  rw [show (100 : ℚ) * x / 36000 = x / 360 by ring]
  ring

/-- Python modulo of integer values is integer remainder. -/
lemma pyMod_intCast (n : ℤ) : pyMod (n : ℚ) 36000 = ((n % 36000 : ℤ) : ℚ) := by
  unfold pyMod
  have h : ((n : ℚ) / 36000) = ((n : ℚ) / ((36000 : ℕ) : ℚ)) := by norm_num
  rw [h, Rat.floor_intCast_div_natCast]
  have : n % 36000 = n - 36000 * (n / 36000) := by
    rw [Int.emod_def]
  rw [this]
  push_cast
  ring

lemma pyTrunc_of_nonneg {x : ℚ} (h : 0 ≤ x) : pyTrunc x = ⌊x⌋ := by
  unfold pyTrunc; rw [if_pos h]

/-! ## C2: response validation -/

/-- C2 (counterexample): for the configuration with `min_elevation = 10`,
`max_elevation = 0` the validator raises `ValueError` on a response whose
checksum is correct, so validation is neither raise-free nor independent
of the configuration as the claim states. -/
theorem c2_counterexample :
    checksum_okb [255, 1, 0, 0, 0, 0, 1] = true ∧
      _validate_response ⟨10, 0, 0, 0⟩ [255, 1, 0, 0, 0, 0, 1] =
        .error "ValueError: min elevation above max elevation" := by
  constructor
  · decide
  · unfold _validate_response
    rw [if_pos (by norm_num)]

/-- C2 (amended): for every configuration satisfying the documented range
invariant (`min ≤ max`, bounds within `[-180, 360]`) and every 7-byte
response, validation returns, without raising, exactly the structural test
`sum(bytes[1..5]) % 256 == bytes[6]`, and its outcome does not depend on
which valid configuration is used. -/
theorem c2_checksum_structural (cfg cfg' : AngleCorrection)
    (response : List ℕ) (hv : cfg.valid) (hv' : cfg'.valid)
    (hlen : response.length = 7) :
    _validate_response cfg response =
        .ok (((response.drop 1).take 5).sum % 256 == response.getLastD 0) ∧
      _validate_response cfg' response = _validate_response cfg response := by
  have hdl : (response.drop 1).dropLast = (response.drop 1).take 5 := by
    rw [List.dropLast_eq_take]
    congr 1
    simp [hlen]
  constructor
  · rw [validate_of_valid cfg hv]
    unfold checksum_okb
    rw [hdl]
  · rw [validate_of_valid cfg hv, validate_of_valid cfg' hv']

/-- C2 witness: the amended statement evaluated on a concrete valid
configuration pair and a concrete frame. -/
theorem c2_checksum_structural_witness :
    (⟨0, 90, 0, 0⟩ : AngleCorrection).valid ∧
      (⟨-30, 60, 5, 15⟩ : AngleCorrection).valid ∧
      ([255, 1, 0, 83, 3, 232, 63] : List ℕ).length = 7 ∧
      (_validate_response ⟨0, 90, 0, 0⟩ [255, 1, 0, 83, 3, 232, 63] =
          .ok ((([255, 1, 0, 83, 3, 232, 63].drop 1).take 5).sum % 256 ==
            [255, 1, 0, 83, 3, 232, 63].getLastD 0) ∧
        _validate_response ⟨-30, 60, 5, 15⟩ [255, 1, 0, 83, 3, 232, 63] =
          _validate_response ⟨0, 90, 0, 0⟩ [255, 1, 0, 83, 3, 232, 63]) :=
  ⟨by constructor <;> norm_num, by constructor <;> norm_num, by decide,
    c2_checksum_structural ⟨0, 90, 0, 0⟩ ⟨-30, 60, 5, 15⟩
      [255, 1, 0, 83, 3, 232, 63]
      (by constructor <;> norm_num) (by constructor <;> norm_num) (by decide)⟩

/-! ## C6: azimuth set handler -/

/-- C6 (counterexample): an input of exactly 360 degrees is not reduced
(the source only reduces when the angle strictly exceeds 360), so the sent
packet encodes 36000 centidegrees (data bytes 140, 160), not 0 as the
claim states. -/
theorem c6_counterexample :
    _handle_azimuth ⟨[], []⟩ 360 =
        ((true, [generate_packet 0 0x4B 140 160]), ⟨[], []⟩) ∧
      generate_packet 0 0x4B 140 160 ≠ generate_packet 0 0x4B 0 0 := by
  constructor
  · unfold _handle_azimuth _send_angle_command hwSend pyTrunc
    norm_num
    decide
  · decide

/-- C6 (amended): the azimuth handler returns `false` for every negative
input without sending anything; for every non-negative input it reduces
the angle modulo 360 only when the angle strictly exceeds 360 (so exactly
360 stays 36000 centidegrees), encodes it, sends the packet, and returns
the transport send result. -/
theorem c6_azimuth_handler (hw : PelcoHw) (angle : ℚ) :
    (angle < 0 → _handle_azimuth hw angle = ((false, []), hw)) ∧
      (0 ≤ angle → _handle_azimuth hw angle =
        (((hwSend hw).1,
            [(_send_angle_command hw
              (if angle > 360 then pyMod angle 360 else angle) 0x4B).1.2]),
          (hwSend hw).2)) := by
  constructor
  · intro h
    unfold _handle_azimuth
    rw [if_pos h]
  · intro h
    unfold _handle_azimuth _send_angle_command
    rw [if_neg (not_lt.mpr h)]

/-- C6 witness: the amended statement at input exactly 360. -/
theorem c6_azimuth_handler_witness :
    (0 : ℚ) ≤ 360 ∧
      _handle_azimuth ⟨[], []⟩ 360 =
        (((hwSend ⟨[], []⟩).1,
            [(_send_angle_command ⟨[], []⟩
              (if (360 : ℚ) > 360 then pyMod 360 360 else 360) 0x4B).1.2]),
          (hwSend ⟨[], []⟩).2) :=
  ⟨by norm_num, (c6_azimuth_handler ⟨[], []⟩ 360).2 (by norm_num)⟩

/-! ## C9: handler construction arity -/

/-- C9: for both supported protocol kinds the handler factory calls the
constructor with two positional arguments while the constructor accepts
one, so handler creation raises `TypeError` regardless of whether a
connection could be made, and system construction can never complete. -/
theorem c9_ctor_arity (protocol other : String) (c₁ c₂ : Bool)
    (h : protocol = "serial" ∨ protocol = "tcp") :
    _create_handler protocol c₁ = .error "TypeError" ∧
      controlSystemInit protocol other c₁ c₂ = .error "TypeError" := by
  have hc : _create_handler protocol c₁ = .error "TypeError" := by
    rcases h with h | h <;> subst h <;> rfl
  exact ⟨hc, by unfold controlSystemInit; rw [hc]; rfl⟩

/-- C9 witness: the serial protocol with both connections nominally
succeeding still fails with `TypeError`. -/
theorem c9_ctor_arity_witness :
    ("serial" = "serial" ∨ "serial" = "tcp") ∧
      (_create_handler "serial" true = .error "TypeError" ∧
        controlSystemInit "serial" "tcp" true true = .error "TypeError") :=
  ⟨Or.inl rfl, c9_ctor_arity "serial" "tcp" true true (Or.inl rfl)⟩

/-! ## C10: elevation set handler accepts every angle -/

/-- C10: the elevation set handler performs no range check: for every
configuration and every (finite) input angle it computes the
wraparound-adjusted value, frames it, sends exactly one packet, and
returns the transport send result. -/
theorem c10_elevation_no_range_check (cfg : AngleCorrection) (hw : PelcoHw)
    (angle : ℚ) :
    _handle_elevation cfg hw angle =
      (((hwSend hw).1,
          [(_send_angle_command hw
            (if angle ≥ |cfg.min_elevation| then angle - |cfg.min_elevation|
              else 360 + cfg.min_elevation + angle) 0x4D).1.2]),
        (hwSend hw).2) := by
  unfold _handle_elevation _send_angle_command
  rfl

/-! ## C4 and C5: query retry loop -/

/-- When every available frame is discarded, the read loop consumes its
whole fuel, one read per unit, and yields `None`. -/
lemma queryReadLoop_exhaust (cfg : AngleCorrection) (q : ℕ)
    (hv : cfg.valid) :
    ∀ (n : ℕ) (frames : List (List ℕ)),
      (∀ f ∈ frames, invalid_frame q f) →
      queryReadLoop cfg (generate_packet 0 q 0 0) q n frames = (.ok none, n) := by
  intro n
  induction n with
  | zero => intro frames _; rfl
  | succ n ih =>
    intro frames hf
    cases frames with
    | nil =>
      simp only [queryReadLoop, List.headD_nil, List.tail_nil, true_or, if_true]
      rw [ih [] (by intro f hmem; cases hmem)]
    | cons f rest =>
      have hrest : ∀ g ∈ rest, invalid_frame q g := fun g hg => hf g (List.mem_cons_of_mem f hg)
      have hfst : invalid_frame q f := hf f (List.mem_cons_self f rest)
      simp only [queryReadLoop, List.headD_cons, List.tail_cons]
      rcases hfst with h | h | h | h
      · rw [if_pos (Or.inl h), ih rest hrest]
      · rw [if_pos (Or.inr h), ih rest hrest]
      · by_cases he : f = [] ∨ f = generate_packet 0 q 0 0
        · rw [if_pos he, ih rest hrest]
        · rw [if_neg he, if_neg h, ih rest hrest]
      · by_cases he : f = [] ∨ f = generate_packet 0 q 0 0
        · rw [if_pos he, ih rest hrest]
        · rw [if_neg he]
          by_cases hl : f.length = 7
          · rw [if_pos hl, validate_of_valid cfg hv, h, ih rest hrest]
          · rw [if_neg hl, ih rest hrest]

/-- C4: under a valid configuration, the angle query returns `None` with
zero read attempts when the initial send fails, and, when every frame the
transport yields is discarded (empty, echo, wrong length, or bad
checksum), it returns `None` after exactly 3 read attempts. -/
theorem c4_query_exhaustion (cfg : AngleCorrection) (q : ℕ)
    (stale frames : List (List ℕ)) (srest : List Bool)
    (brest : List (List (List ℕ) × List (List ℕ))) (hv : cfg.valid) :
    query_angle cfg ⟨false :: srest, (stale, frames) :: brest⟩ q =
        ((.ok none, 0), ⟨srest, brest⟩) ∧
      ((∀ f ∈ flushDrain stale ++ frames, invalid_frame q f) →
        query_angle cfg ⟨true :: srest, (stale, frames) :: brest⟩ q =
          ((.ok none, 3), ⟨srest, brest⟩)) := by
  constructor
  · unfold query_angle hwBatch hwSend
    simp
  · intro hf
    unfold query_angle hwBatch hwSend
    simp only [List.headD_cons, List.tail_cons, if_true]
    rw [queryReadLoop_exhaust cfg q hv 3 _ hf]

/-- C4 witness: a transport yielding a single 3-byte frame (wrong length),
checked for both the failing-send case and the 3-attempt exhaustion. -/
theorem c4_query_exhaustion_witness :
    (⟨0, 90, 0, 0⟩ : AngleCorrection).valid ∧
      (∀ f ∈ flushDrain [] ++ [[1, 2, 3]], invalid_frame 0x53 f) ∧
      (query_angle ⟨0, 90, 0, 0⟩ ⟨[false], [([], [[1, 2, 3]])]⟩ 0x53 =
          ((.ok none, 0), ⟨[], []⟩) ∧
        query_angle ⟨0, 90, 0, 0⟩ ⟨[true], [([], [[1, 2, 3]])]⟩ 0x53 =
          ((.ok none, 3), ⟨[], []⟩)) :=
  ⟨by constructor <;> norm_num, by decide,
    (c4_query_exhaustion ⟨0, 90, 0, 0⟩ 0x53 [] [[1, 2, 3]] [] []
        (by constructor <;> norm_num)).1,
    (c4_query_exhaustion ⟨0, 90, 0, 0⟩ 0x53 [] [[1, 2, 3]] [] []
        (by constructor <;> norm_num)).2 (by decide)⟩

/-- C5: when the transport first echoes the outgoing query packet and then
delivers a 7-byte response with a correct checksum, the query discards the
echo and returns the corrected value decoded from the true response
(`(byte[4] << 8) | byte[5]`), using exactly two read attempts. -/
theorem c5_echo_discarded (cfg : AngleCorrection) (q : ℕ)
    (response : List ℕ) (srest : List Bool)
    (brest : List (List (List ℕ) × List (List ℕ))) (hv : cfg.valid)
    (hlen : response.length = 7) (hsum : checksum_okb response = true)
    (hne : response ≠ generate_packet 0 q 0 0) :
    query_angle cfg
        ⟨true :: srest, ([], [generate_packet 0 q 0 0, response]) :: brest⟩ q =
      ((.ok (some (_apply_angle_correction cfg (raw_from_response response) q)), 2),
        ⟨srest, brest⟩) := by
  have hnn : response ≠ [] := by
    intro h; rw [h] at hlen; simp at hlen
  unfold query_angle hwBatch hwSend
  simp only [List.headD_cons, List.tail_cons, if_true]
  rw [show flushDrain [] ++ [generate_packet 0 q 0 0, response] =
    [generate_packet 0 q 0 0, response] from rfl]
  simp only [queryReadLoop, List.headD_cons, List.tail_cons, or_true, if_true]
  rw [if_neg (by push_neg; exact ⟨hnn, hne⟩), if_pos hlen,
    validate_of_valid cfg hv, hsum]

/-- C5 witness: echo then the true response `[255,1,0,83,3,232,63]`
(raw value 1000 centidegrees) under a zero-offset configuration. -/
theorem c5_echo_discarded_witness :
    (⟨0, 90, 0, 0⟩ : AngleCorrection).valid ∧
      ([255, 1, 0, 83, 3, 232, 63] : List ℕ).length = 7 ∧
      checksum_okb [255, 1, 0, 83, 3, 232, 63] = true ∧
      ([255, 1, 0, 83, 3, 232, 63] : List ℕ) ≠ generate_packet 0 0x53 0 0 ∧
      query_angle ⟨0, 90, 0, 0⟩
          ⟨[true], [([], [generate_packet 0 0x53 0 0, [255, 1, 0, 83, 3, 232, 63]])]⟩
          0x53 =
        ((.ok (some (_apply_angle_correction ⟨0, 90, 0, 0⟩
            (raw_from_response [255, 1, 0, 83, 3, 232, 63]) 0x53)), 2),
          ⟨[], []⟩) :=
  ⟨by constructor <;> norm_num, by decide, by decide, by decide,
    c5_echo_discarded ⟨0, 90, 0, 0⟩ 0x53 [255, 1, 0, 83, 3, 232, 63] [] []
      (by constructor <;> norm_num) (by decide) (by decide) (by decide)⟩

/-! ## Helper lemmas for the dispatcher claims -/

lemma _send_angle_command_eq (hw : PelcoHw) (angle : ℚ) (command : ℕ) :
    _send_angle_command hw angle command =
      (((hwSend hw).1, anglePacket angle command), (hwSend hw).2) := rfl

lemma _handle_elevation_eq (cfg : AngleCorrection) (hw : PelcoHw) (angle : ℚ) :
    _handle_elevation cfg hw angle =
      (((hwSend hw).1, [anglePacket (elevAdjusted cfg angle) 0x4D]),
        (hwSend hw).2) := rfl

lemma set_angle_elev (cfg : AngleCorrection) (hw : PelcoHw) (angle : ℚ) :
    set_angle cfg hw angle 0x4D = _handle_elevation cfg hw angle := rfl

lemma set_angle_az (cfg : AngleCorrection) (hw : PelcoHw) (angle : ℚ) :
    set_angle cfg hw angle 0x4B = _handle_azimuth hw angle := rfl

lemma _handle_azimuth_neg (hw : PelcoHw) {angle : ℚ} (h : angle < 0) :
    _handle_azimuth hw angle = ((false, []), hw) := by
  unfold _handle_azimuth
  rw [if_pos h]

lemma _handle_azimuth_nonneg (hw : PelcoHw) {angle : ℚ} (h : 0 ≤ angle) :
    _handle_azimuth hw angle =
      (((hwSend hw).1,
          [anglePacket (if angle > 360 then pyMod angle 360 else angle) 0x4B]),
        (hwSend hw).2) := by
  unfold _handle_azimuth
  rw [if_neg (not_lt.mpr h)]
  rfl

lemma azimuth_45 (hw : PelcoHw) :
    _handle_azimuth hw 45 =
      (((hwSend hw).1, [anglePacket 45 0x4B]), (hwSend hw).2) := by
  rw [_handle_azimuth_nonneg hw (by norm_num : (0:ℚ) ≤ 45),
    if_neg (by norm_num : ¬ (45:ℚ) > 360)]

lemma toRat_nat (n : ℕ) : DecLit.toRat ⟨false, n, 0, 0, false, 0⟩ = n := by
  simp [DecLit.toRat]

lemma toRat_neg_nat (n : ℕ) : DecLit.toRat ⟨true, n, 0, 0, false, 0⟩ = -n := by
  simp [DecLit.toRat]

lemma parseFloat_45 : parseFloat ['4', '5'] = some 45 := by
  have h : parseFloatLit ['4', '5'] = some ⟨false, 45, 0, 0, false, 0⟩ := by decide
  rw [parseFloat, h, Option.map_some', toRat_nat]
  norm_num

lemma parseFloat_10 : parseFloat ['1', '0'] = some 10 := by
  have h : parseFloatLit ['1', '0'] = some ⟨false, 10, 0, 0, false, 0⟩ := by decide
  rw [parseFloat, h, Option.map_some', toRat_nat]
  norm_num

lemma parseFloat_neg5 : parseFloat ['-', '5'] = some (-5) := by
  have h : parseFloatLit ['-', '5'] = some ⟨true, 5, 0, 0, false, 0⟩ := by decide
  rw [parseFloat, h, Option.map_some', toRat_neg_nat]
  norm_num

/-- The control path on the token string `45 10` with a fresh transport:
both sets succeed and `ACK` is replied. -/
lemma control_45_10 (cfg : AngleCorrection) :
    _execute_angle_control_command cfg ⟨[], []⟩ "45 10".data =
      (("ACK\r\n".data, [anglePacket 45 0x4B, anglePacket (elevAdjusted cfg 10) 0x4D]),
        ⟨[], []⟩) := by
  have hsplit : pySplit "45 10".data = ["45".data, "10".data] := by decide
  simp only [_execute_angle_control_command, hsplit, parseFloat_45, parseFloat_10,
    set_angle_az, set_angle_elev, azimuth_45, _handle_elevation_eq, hwSend,
    List.headD_nil, List.tail_nil]
  rfl

/-- The control path on the token string `-5 10`: the azimuth handler
rejects the negative azimuth before anything is sent, so no reply and no
packet. -/
lemma control_neg5_10 (cfg : AngleCorrection) (hw : PelcoHw) :
    _execute_angle_control_command cfg hw "-5 10".data = (([], []), hw) := by
  have hsplit : pySplit "-5 10".data = ["-5".data, "10".data] := by decide
  simp only [_execute_angle_control_command, hsplit, parseFloat_neg5, parseFloat_10,
    set_angle_az, _handle_azimuth_neg hw (by norm_num : (-5:ℚ) < 0)]
  rfl

/-! ## C3: the W command -/

/-- C3: on a `W` argument string with at least two tokens, if both tokens
parse as floats the handler sets azimuth (`0x4B`) then elevation (`0x4D`),
replying `ACK\r\n` exactly when both sets succeed and nothing otherwise,
with the elevation set attempted only after a successful azimuth set; if
either token fails to parse, the handler replies nothing, sends nothing,
and raises nothing; end to end, the line `W 45 10` on a transport that
accepts both sets yields the reply `ACK\r\n`. -/
theorem c3_w_set_command (cfg : AngleCorrection) (hw : PelcoHw)
    (s t1 t2 : List Char) (rest : List (List Char))
    (hsplit : pySplit s = t1 :: t2 :: rest) :
    (∀ az el, parseFloat t1 = some az → parseFloat t2 = some el →
      _execute_angle_control_command cfg hw s =
        ((if (set_angle cfg hw az 0x4B).1.1 = true ∧
              (set_angle cfg (set_angle cfg hw az 0x4B).2 el 0x4D).1.1 = true
            then "ACK\r\n".data else [],
          (set_angle cfg hw az 0x4B).1.2 ++
            (if (set_angle cfg hw az 0x4B).1.1 = true
              then (set_angle cfg (set_angle cfg hw az 0x4B).2 el 0x4D).1.2
              else [])),
          if (set_angle cfg hw az 0x4B).1.1 = true
            then (set_angle cfg (set_angle cfg hw az 0x4B).2 el 0x4D).2
            else (set_angle cfg hw az 0x4B).2)) ∧
    ((parseFloat t1 = none ∨ parseFloat t2 = none) →
      _execute_angle_control_command cfg hw s = (([], []), hw)) ∧
    _process_command cfg ⟨[], []⟩ "W 45 10".data =
      (.ok ("ACK\r\n".data,
        [anglePacket 45 0x4B, anglePacket (elevAdjusted cfg 10) 0x4D]), ⟨[], []⟩) := by
  refine ⟨?_, ?_, ?_⟩
  · intro az el h1 h2
    rcases hA : set_angle cfg hw az 0x4B with ⟨⟨okA, sentA⟩, hw₁⟩
    simp only [_execute_angle_control_command, hsplit, h1, h2, hA]
    cases okA with
    | true =>
      rcases hE : set_angle cfg hw₁ el 0x4D with ⟨⟨okE, sentE⟩, hw₂⟩
      simp only [hE]
      cases okE <;> simp
    | false => simp
  · intro h
    rcases hp : parseFloat t1 with _ | az
    · simp only [_execute_angle_control_command, hsplit, hp]
    · rcases h with h | h
      · rw [hp] at h; cases h
      · simp only [_execute_angle_control_command, hsplit, hp, h]
  · rw [_process_command]
    rw [if_neg (by decide), if_neg (by decide), if_pos (by decide)]
    rw [show pyStrip ("W 45 10".data.drop 1) = "45 10".data from by decide]
    rw [control_45_10]

/-- C3 witness: the theorem applied to the line `W 45 10` itself, with the
zero-offset configuration. -/
theorem c3_w_set_command_witness :
    pySplit "45 10".data = ['4', '5'] :: ['1', '0'] :: [] ∧
      _process_command ⟨0, 90, 0, 0⟩ ⟨[], []⟩ "W 45 10".data =
        (.ok ("ACK\r\n".data,
          [anglePacket 45 0x4B,
            anglePacket (elevAdjusted ⟨0, 90, 0, 0⟩ 10) 0x4D]), ⟨[], []⟩) :=
  ⟨by decide,
    (c3_w_set_command ⟨0, 90, 0, 0⟩ ⟨[], []⟩ "45 10".data ['4', '5'] ['1', '0'] []
      (by decide)).2.2⟩

/-! ## C8: the set_pos command -/

/-- C8: on a `\set_pos` argument string with exactly two tokens that parse
as floats, a negative elevation yields no reply with no set command
issued; otherwise both values are rounded to the nearest integer degree
and delegated to the angle-set path; and the full line `\set_pos -5 10`
produces no reply and no packet. -/
theorem c8_setpos (cfg : AngleCorrection) (hw : PelcoHw) (s t1 t2 : List Char)
    (hsplit : pySplit s = [t1, t2]) :
    (∀ az el, parseFloat t1 = some az → parseFloat t2 = some el →
      ((el < 0 → _handle_setpos cfg hw s = (([], []), hw)) ∧
        (0 ≤ el → _handle_setpos cfg hw s =
          _execute_angle_control_command cfg hw
            (intChars (pyRound az) ++ ' ' :: intChars (pyRound el))))) ∧
    (∀ (cfg' : AngleCorrection) (hw' : PelcoHw),
      _process_command cfg' hw' "\\set_pos -5 10".data = (.ok ([], []), hw')) := by
  constructor
  · intro az el h1 h2
    constructor
    · intro hel
      simp only [_handle_setpos, hsplit, List.length_cons, List.length_nil,
        List.getD_cons_zero, List.getD_cons_succ, h1, h2]
      rw [if_neg (by norm_num), if_pos hel]
    · intro hel
      simp only [_handle_setpos, hsplit, List.length_cons, List.length_nil,
        List.getD_cons_zero, List.getD_cons_succ, h1, h2]
      rw [if_neg (by norm_num), if_neg (not_lt.mpr hel)]
  · intro cfg' hw'
    rw [_process_command]
    rw [if_neg (by decide), if_neg (by decide), if_neg (by decide),
      if_pos (by decide)]
    rw [show pyStrip ("\\set_pos -5 10".data.drop 8) = "-5 10".data from by decide]
    have hsp : pySplit "-5 10".data = [['-', '5'], ['1', '0']] := by decide
    have hr1 : pyRound (-5 : ℚ) = -5 := by
      rw [pyRound]
      norm_num
    have hr2 : pyRound (10 : ℚ) = 10 := by
      rw [pyRound]
      norm_num
    simp only [_handle_setpos, hsp, List.length_cons, List.length_nil,
      List.getD_cons_zero, List.getD_cons_succ, parseFloat_neg5, parseFloat_10,
      hr1, hr2]
    norm_num
    rw [show intChars (-5) ++ ' ' :: intChars 10 = "-5 10".data from by decide]
    rw [control_neg5_10]
    exact ⟨rfl, rfl⟩

/-- C8 witness: the theorem applied to the argument string `-5 10` with a
non-negative elevation token, and the delegation instance at rounded
integers. -/
theorem c8_setpos_witness :
    pySplit "-5 10".data = [['-', '5'], ['1', '0']] ∧
      (0 : ℚ) ≤ 10 ∧
      _handle_setpos ⟨0, 90, 0, 0⟩ ⟨[], []⟩ "-5 10".data =
        _execute_angle_control_command ⟨0, 90, 0, 0⟩ ⟨[], []⟩
          (intChars (pyRound (-5)) ++ ' ' :: intChars (pyRound 10)) :=
  ⟨by decide, by norm_num,
    (((c8_setpos ⟨0, 90, 0, 0⟩ ⟨[], []⟩ "-5 10".data ['-', '5'] ['1', '0']
        (by decide)).1 (-5) 10 parseFloat_neg5 parseFloat_10).2 (by norm_num))⟩

/-! ## C7: combined command routing -/

/-- C7: every line that starts with `C2W`, or starts with `W` and ends
with `C2`, is routed to the combined handler before the plain `C2` and `W`
handlers; the combined handler extracts the embedded `W` arguments, runs
the angle-set path, and runs the angle-query path returning its formatted
reply exactly when the set path replied; concretely, `C2W45 10` on a fresh
transport replies with the post-set angle query result. -/
theorem c7_combined_routing (cfg : AngleCorrection) (hw : PelcoHw)
    (cmd : List Char)
    (h : leadsWith "C2W".data cmd = true ∨
      (leadsWith "W".data cmd = true ∧ trailsWith "C2".data cmd = true)) :
    _process_command cfg hw cmd = _handle_combined_command cfg hw cmd ∧
    (∀ R, _execute_angle_control_command cfg hw
        (if leadsWith "C2W".data cmd then cmd.drop 3
          else (cmd.drop 1).dropLast.dropLast) = R →
      _handle_combined_command cfg hw cmd =
        (if R.1.1 ≠ [] then
          match _execute_angle_query_command cfg R.2 with
          | (.error e, hw₂) => (.error e, hw₂)
          | (.ok r, hw₂) => (.ok (r, R.1.2), hw₂)
        else (.ok ([], R.1.2), R.2))) ∧
    ((_process_command cfg ⟨[], []⟩ "C2W45 10".data).1.map Prod.fst =
        (_execute_angle_query_command cfg ⟨[], []⟩).1 ∧
      (_process_command cfg ⟨[], []⟩ "C2W45 10".data).2 =
        (_execute_angle_query_command cfg ⟨[], []⟩).2) := by
  refine ⟨?_, ?_, ?_⟩
  · rw [_process_command, if_pos h]
  · intro R hR
    obtain ⟨⟨w_result, sent⟩, hw₁⟩ := R
    rw [_handle_combined_command, hR]
  · have hroute : leadsWith "C2W".data "C2W45 10".data = true ∨
        (leadsWith "W".data "C2W45 10".data = true ∧
          trailsWith "C2".data "C2W45 10".data = true) := Or.inl (by decide)
    rw [_process_command, if_pos hroute, _handle_combined_command,
      if_pos (by decide : leadsWith "C2W".data "C2W45 10".data = true)]
    rw [show "C2W45 10".data.drop 3 = "45 10".data from by decide]
    rw [control_45_10]
    rcases hq : _execute_angle_query_command cfg ⟨[], []⟩ with ⟨qr, qhw⟩
    cases qr with
    | error e => simp [hq, Except.map]
    | ok r => simp [hq, Except.map]

/-- C7 witness: the theorem applied to the line `C2W45 10`. -/
theorem c7_combined_routing_witness :
    (leadsWith "C2W".data "C2W45 10".data = true ∨
      (leadsWith "W".data "C2W45 10".data = true ∧
        trailsWith "C2".data "C2W45 10".data = true)) ∧
      _process_command ⟨0, 90, 0, 0⟩ ⟨[], []⟩ "C2W45 10".data =
        _handle_combined_command ⟨0, 90, 0, 0⟩ ⟨[], []⟩ "C2W45 10".data :=
  ⟨Or.inl (by decide),
    (c7_combined_routing ⟨0, 90, 0, 0⟩ ⟨[], []⟩ "C2W45 10".data
      (Or.inl (by decide))).1⟩

/-! ## C1: the elevation round trip -/

lemma elevation_round_trip_eq (cfg : AngleCorrection) (a : ℚ) :
    elevation_round_trip cfg a =
      _apply_angle_correction cfg
        (raw_from_response (anglePacket (elevAdjusted cfg a) 0x4D)) 0x53 := rfl

lemma _apply_angle_correction_elev (cfg : AngleCorrection) (raw_value : ℕ) :
    _apply_angle_correction cfg raw_value 0x53 =
      pyTrunc (pyMod ((raw_value : ℚ) / 100 + |cfg.min_elevation|) 360 * 100) := rfl

/-- C1 (amended): when the configured minimum elevation is an integral
number of centidegrees, the elevation set value fed back through the
elevation query correction reconstructs the original angle to within one
centidegree (0.01 degrees), up to a whole number of turns. -/
theorem c1_elevation_round_trip_aligned (cfg : AngleCorrection) (a : ℚ)
    (A : ℤ) (hA : (A : ℚ) = 100 * cfg.min_elevation) (hv : cfg.valid)
    (h1 : cfg.min_elevation ≤ a) (h2 : a ≤ cfg.max_elevation) :
    ∃ k : ℤ, |(elevation_round_trip cfg a : ℚ) - 100 * a - 36000 * k| ≤ 1 := by
  obtain ⟨hmM, hm, hM⟩ := hv
  have ha360 : a ≤ 360 := le_trans h2 hM
  have habs : (|A| : ℚ) = 100 * |cfg.min_elevation| := by
    rw [hA, abs_mul]
    norm_num
  obtain ⟨c, hc01, hadj, hadj0, hadj360⟩ :
      ∃ c : ℤ, (c = 0 ∨ c = 1) ∧
        elevAdjusted cfg a = a - |cfg.min_elevation| + 360 * c ∧
        0 ≤ elevAdjusted cfg a ∧ elevAdjusted cfg a ≤ 360 := by
    by_cases hbr : a ≥ |cfg.min_elevation|
    · refine ⟨0, Or.inl rfl, ?_, ?_, ?_⟩
      · rw [elevAdjusted, if_pos hbr]; push_cast; ring
      · rw [elevAdjusted, if_pos hbr]; linarith
      · rw [elevAdjusted, if_pos hbr]
        have := abs_nonneg cfg.min_elevation
        linarith
    · have hlt : a < |cfg.min_elevation| := lt_of_not_ge hbr
      have hmneg : cfg.min_elevation < 0 := by
        by_contra hnn
        push_neg at hnn
        rw [abs_of_nonneg hnn] at hlt
        linarith
      have habsm : |cfg.min_elevation| = -cfg.min_elevation := abs_of_neg hmneg
      refine ⟨1, Or.inr rfl, ?_, ?_, ?_⟩
      · rw [elevAdjusted, if_neg hbr, habsm]; push_cast; ring
      · rw [elevAdjusted, if_neg hbr]; linarith
      · rw [elevAdjusted, if_neg hbr]
        rw [habsm] at hlt
        linarith
  have hadjm : (0 : ℚ) ≤ elevAdjusted cfg a * 100 := by positivity
  have hvfloor : pyTrunc (elevAdjusted cfg a * 100) = ⌊elevAdjusted cfg a * 100⌋ :=
    pyTrunc_of_nonneg hadjm
  have hadj100 : elevAdjusted cfg a * 100 = 100 * a + ((-|A| + 36000 * c : ℤ) : ℚ) := by
    rw [hadj]
    push_cast
    rw [habs]
    ring
  have hfloorshift : ⌊elevAdjusted cfg a * 100⌋ = ⌊(100 * a : ℚ)⌋ + (-|A| + 36000 * c) := by
    rw [hadj100, Int.floor_add_int]
  set v := pyTrunc (elevAdjusted cfg a * 100) with hvdef
  have hveq : v = ⌊(100 * a : ℚ)⌋ - |A| + 36000 * c := by
    rw [hvfloor, hfloorshift]; ring
  have hv0 : 0 ≤ v := by
    rw [hvfloor]
    exact Int.floor_nonneg.mpr hadjm
  have hv36 : v ≤ 36000 := by
    rw [hvfloor]
    have hle : elevAdjusted cfg a * 100 ≤ 36000 := by linarith
    calc ⌊elevAdjusted cfg a * 100⌋ ≤ ⌊(36000 : ℚ)⌋ := Int.floor_le_floor hle
      _ = 36000 := by norm_num
  have hd2lt : (v % 256).toNat < 256 := by
    have ha' : 0 ≤ v % 256 := Int.emod_nonneg v (by norm_num)
    have hb' : v % 256 < 256 := Int.emod_lt_of_pos v (by norm_num)
    omega
  have hrawdef : raw_from_response (anglePacket (elevAdjusted cfg a) 0x4D) =
      (v / 256 % 256).toNat <<< 8 ||| (v % 256).toNat := rfl
  have hraw : ((raw_from_response (anglePacket (elevAdjusted cfg a) 0x4D) : ℕ) : ℤ) = v := by
    rw [hrawdef, lor_shift_eq _ _ hd2lt]
    have hq0 : 0 ≤ v / 256 % 256 := Int.emod_nonneg _ (by norm_num)
    have hr0 : 0 ≤ v % 256 := Int.emod_nonneg v (by norm_num)
    push_cast [Int.toNat_of_nonneg hq0, Int.toNat_of_nonneg hr0]
    omega
  have hrt : elevation_round_trip cfg a = (v + |A|) % 36000 := by
    rw [elevation_round_trip_eq, _apply_angle_correction_elev]
    have hcast : ((raw_from_response (anglePacket (elevAdjusted cfg a) 0x4D) : ℕ) : ℚ) =
        (v : ℚ) := by exact_mod_cast hraw
    rw [hcast]
    rw [mul_comm (pyMod ((v : ℚ) / 100 + |cfg.min_elevation|) 360) 100, pyMod_scale]
    have harg : 100 * ((v : ℚ) / 100 + |cfg.min_elevation|) = ((v + |A| : ℤ) : ℚ) := by
      push_cast
      rw [habs]
      ring
    rw [harg, pyMod_intCast]
    have hnn : (0 : ℚ) ≤ (((v + |A|) % 36000 : ℤ) : ℚ) := by
      exact_mod_cast Int.emod_nonneg (v + |A|) (by norm_num)
    rw [pyTrunc_of_nonneg hnn, Int.floor_intCast]
  obtain ⟨k, hk⟩ : ∃ k : ℤ, (v + |A|) % 36000 = ⌊(100 * a : ℚ)⌋ + 36000 * k := by
    refine ⟨c - (v + |A|) / 36000, ?_⟩
    have hmod := Int.emod_def (v + |A|) 36000
    omega
  refine ⟨k, ?_⟩
  rw [hrt, hk]
  have hf1 : ((⌊(100 * a : ℚ)⌋ : ℤ) : ℚ) ≤ 100 * a := Int.floor_le _
  have hf2 : 100 * a < ((⌊(100 * a : ℚ)⌋ : ℤ) : ℚ) + 1 := Int.lt_floor_add_one _
  push_cast
  rw [abs_le]
  constructor <;> linarith


/-- C1 (counterexample): with the valid in-range configuration
`min_elevation = 0.0099`, `max_elevation = 1` and the in-range angle
`0.0298`, the two truncations compound: the round trip returns
1 centidegree while the original angle is 2.98 centidegrees, an error of
0.0198 degrees, more than the claimed 0.01 even after accounting for
whole-turn wraparound. -/
theorem c1_counterexample :
    (⟨99/10000, 1, 0, 0⟩ : AngleCorrection).valid ∧
      (⟨99/10000, 1, 0, 0⟩ : AngleCorrection).min_elevation ≤ 298/10000 ∧
      (298/10000 : ℚ) ≤ (⟨99/10000, 1, 0, 0⟩ : AngleCorrection).max_elevation ∧
      ∀ k : ℤ, 1 < |(elevation_round_trip ⟨99/10000, 1, 0, 0⟩ (298/10000) : ℚ) -
        100 * (298/10000) - 36000 * k| := by
  have habs0 : |(99/10000 : ℚ)| = 99/10000 := abs_of_pos (by norm_num)
  have hadj : elevAdjusted ⟨99/10000, 1, 0, 0⟩ (298/10000) = 199/10000 := by
    rw [elevAdjusted]
    show (if (298/10000 : ℚ) ≥ |(99/10000 : ℚ)| then (298/10000 : ℚ) - |(99/10000 : ℚ)|
      else 360 + 99/10000 + 298/10000) = 199/10000
    rw [habs0, if_pos (by norm_num)]
    norm_num
  have hval : pyTrunc ((199/10000 : ℚ) * 100) = 1 := by
    rw [pyTrunc_of_nonneg (by norm_num)]
    norm_num
  have hpkt : anglePacket (199/10000 : ℚ) 0x4D = [255, 1, 0, 77, 0, 1, 79] := by
    rw [anglePacket, hval]
    decide
  have hraw : raw_from_response [255, 1, 0, 77, 0, 1, 79] = 1 := by decide
  have hmod : pyMod (199/10000 : ℚ) 360 = 199/10000 := by
    rw [pyMod]
    norm_num
  have hr : elevation_round_trip ⟨99/10000, 1, 0, 0⟩ (298/10000) = 1 := by
    rw [elevation_round_trip_eq, hadj, hpkt, hraw, _apply_angle_correction_elev]
    show pyTrunc (pyMod (((1 : ℕ) : ℚ) / 100 + |(99/10000 : ℚ)|) 360 * 100) = 1
    rw [habs0, show ((1 : ℕ) : ℚ) / 100 + 99/10000 = 199/10000 by norm_num, hmod]
    exact hval
  refine ⟨by norm_num [AngleCorrection.valid], by norm_num, by norm_num, ?_⟩
  intro k
  rw [hr]
  rcases eq_or_ne k 0 with rfl | hk
  · push_cast
    norm_num
    rw [show |(99/50 : ℚ)| = 99/50 from abs_of_pos (by norm_num)]
    norm_num
  · have h1k : (1 : ℚ) ≤ |(k : ℚ)| := by
      have := Int.one_le_abs hk
      calc (1 : ℚ) = ((1 : ℤ) : ℚ) := by norm_num
        _ ≤ ((|k| : ℤ) : ℚ) := by exact_mod_cast this
        _ = |(k : ℚ)| := by push_cast; ring
    have heq : ((1 : ℤ) : ℚ) - 100 * (298/10000) - 36000 * k =
        -(36000 * (k : ℚ) + 198/100) := by push_cast; ring
    rw [heq, abs_neg]
    have habs36 : (36000 : ℚ) ≤ |36000 * (k : ℚ)| := by
      rw [abs_mul, show |(36000 : ℚ)| = 36000 by norm_num]
      nlinarith
    have h2 := abs_sub_abs_le_abs_sub (36000 * (k : ℚ)) (-(198/100))
    rw [show (36000 * (k : ℚ) - -(198/100)) = 36000 * (k : ℚ) + 198/100 by ring] at h2
    rw [show |(-(198/100) : ℚ)| = 198/100 by norm_num] at h2
    linarith

/-- C1 witness: the amended round trip at the centidegree-aligned
configuration `min_elevation = -30`, `max_elevation = 90` and angle 10. -/
theorem c1_elevation_round_trip_aligned_witness :
    ((-3000 : ℤ) : ℚ) = 100 * (⟨-30, 90, 0, 0⟩ : AngleCorrection).min_elevation ∧
      (⟨-30, 90, 0, 0⟩ : AngleCorrection).valid ∧
      (⟨-30, 90, 0, 0⟩ : AngleCorrection).min_elevation ≤ 10 ∧
      (10 : ℚ) ≤ (⟨-30, 90, 0, 0⟩ : AngleCorrection).max_elevation ∧
      ∃ k : ℤ, |(elevation_round_trip ⟨-30, 90, 0, 0⟩ 10 : ℚ) -
        100 * 10 - 36000 * k| ≤ 1 :=
  ⟨by norm_num, by norm_num [AngleCorrection.valid], by norm_num, by norm_num,
    c1_elevation_round_trip_aligned ⟨-30, 90, 0, 0⟩ 10 (-3000) (by norm_num)
      (by norm_num [AngleCorrection.valid]) (by norm_num) (by norm_num)⟩
